import Mathlib

/-!
Verification of the delayed-action scheduling subsystem of `polychaeta.py`
(the frrbot webhook bot).

The Python source is shallowly embedded below:

* times are `Nat` (seconds);
* the APScheduler job store is a `List Job`, with `add_job` (with
  `replace_existing=True`), `get_job` and `remove_job` modelled after the
  library semantics the source relies on (`remove_job` raises
  `JobLookupError` for an unknown id, which is why the source guards its
  call in `issue_comment_created` with `get_job`);
* Python strings are Lean `String`s; `str.lower`, substring containment
  (`in`) and `str.partition` are modelled character-list-wise;
* external GitHub API calls are modelled by injecting their outcomes
  (`Except` values) or their pure results (permission strings, parsed
  dates) as parameters;
* a Python function that can raise an uncaught exception returns
  `Except String _`, the error carrying the exception name.
-/

namespace Polychaeta

/-- Value of a list of decimal digit characters, most significant first,
with accumulator `acc`. -/
def ofDigits (acc : Nat) : List Char → Nat
  | [] => acc
  | c :: cs => ofDigits (10 * acc + (c.toNat - 48)) cs

/-- Is `needle` a prefix of the second list? (Reduces by cases on `needle`.) -/
def isPre : List Char → List Char → Bool
  | [], _ => true
  | a :: as, l =>
    match l with
    | [] => false
    | b :: bs => (a == b) && isPre as bs

/-- Does `needle` occur as a contiguous substring of the list? -/
def infixOf (needle : List Char) : List Char → Bool
  | [] => needle.isEmpty
  | c :: rest => isPre needle (c :: rest) || infixOf needle rest

/-- Split around the first occurrence of `needle`, returning the parts
before and after it (Python `str.partition`). -/
def splitFirst (needle : List Char) : List Char → Option (List Char × List Char)
  | [] => none
  | c :: rest =>
    if isPre needle (c :: rest) then some ([], (c :: rest).drop needle.length)
    else
      match splitFirst needle rest with
      | some (a, b) => some (c :: a, b)
      | none => none

/-- Split around the last occurrence of `needle`, returning the parts
before and after it. -/
def splitLast (needle : List Char) : List Char → Option (List Char × List Char)
  | [] => none
  | c :: rest =>
    match splitLast needle rest with
    | some (a, b) => some (c :: a, b)
    | none =>
      if isPre needle (c :: rest) then some ([], (c :: rest).drop needle.length)
      else none

/-- Python substring containment `needle in hay`. -/
def strContains (hay needle : String) : Bool := infixOf needle.data hay.data

/-- Python `str.lower()`, character-wise ASCII lowering. -/
def strLower (s : String) : String := ⟨s.data.map Char.toLower⟩

/-- Python `s.partition(sep)[2]`: the text after the first occurrence of
`sep`, or `""` when `sep` does not occur. -/
def partitionAfter (s sep : String) : String :=
  match splitFirst sep.data s.data with
  | some (_, b) => ⟨b⟩
  | none => ""

/-- The job-id separator `"@@@"` as a character list. -/
def sepChars : List Char := ['@', '@', '@']

/-- Job-id construction: the id-format expression -- reponame, the
separator `"@@@"`, then the decimal issue number -- appearing at lines 58,
79 and 135 of the source. -/
def make_id (reponame : String) (issuenum : Nat) : String :=
  reponame ++ "@@@" ++ Nat.repr issuenum

/-- Modelled from the spec: `parse_id(id) -> (repo_full_name, issue_number)`
is "the exact inverse" of the job-id construction; no such function exists
in the source. It splits around the last occurrence of the separator
`"@@@"` and parses the decimal suffix. -/
def parse_id (id : String) : Option (String × Nat) :=
  match splitLast sepChars id.data with
  | some (a, b) =>
    if !b.isEmpty && b.all Char.isDigit then some (⟨a⟩, ofDigits 0 b) else none
  | none => none

/-- A persisted job as created by `scheduler.add_job(close_issue,
run_date=when, args=[reponame, issuenum], id=issueid,
replace_existing=True)` at lines 62-68 of the source. -/
structure Job where
  id : String
  run_at : Nat
  arg_reponame : String
  arg_issuenum : Nat
deriving DecidableEq

abbrev SchedState := List Job

/-- Modelled from the external APScheduler library and spec §4.2:
`add_job(..., replace_existing=True)` inserts the job, replacing any
existing job with the same id. -/
def add_job (st : SchedState) (id : String) (run_date : Nat)
    (reponame : String) (issuenum : Nat) : SchedState :=
  st.filter (fun j => j.id != id) ++ [⟨id, run_date, reponame, issuenum⟩]

/-- Modelled from the external APScheduler library: `scheduler.get_job(id)`
returns the pending job with that id, or `None`. -/
def get_job (st : SchedState) (id : String) : Option Job :=
  st.find? (fun j => j.id == id)

/-- Modelled from the external APScheduler library: `scheduler.remove_job(id)`
deletes the job with the given id and raises `JobLookupError` when no such
job exists -- which is why the source guards its call at line 154 with
`get_job`. -/
def remove_job (st : SchedState) (id : String) : Except String SchedState :=
  if st.any (fun j => j.id == id) then .ok (st.filter (fun j => j.id != id))
  else .error "JobLookupError"

structure Repository where
  full_name : String
deriving DecidableEq

/-- A GitHub issue: `number` is the per-repository issue number, `id` the
platform-internal database id (distinct from the number in general). -/
structure Issue where
  repository : Repository
  number : Nat
  id : Nat
deriving DecidableEq

def autoclosemsg : String :=
  "This issue will be automatically closed in one week unless there is further activity."

def noautoclosemsg : String :=
  "This issue will no longer be automatically closed."

def triggerlabel : String := "autoclose"

/-- `schedule_close_issue(issue, when)`, source lines 49-68: builds the job
id from the repository full name and the issue *number* and add_jobs with
`replace_existing=True`. -/
def schedule_close_issue (st : SchedState) (issue : Issue) (w : Nat) : SchedState :=
  let reponame := issue.repository.full_name
  let issuenum := issue.number
  let issueid := make_id reponame issuenum
  add_job st issueid w reponame issuenum

/-- `cancel_close_issue(issue)`, source lines 71-81: builds the job id from
the repository full name and the issue's internal *id* (line 78:
`issuenum = issue.id`) and calls `scheduler.remove_job` unguarded. -/
def cancel_close_issue (st : SchedState) (issue : Issue) : Except String SchedState :=
  let reponame := issue.repository.full_name
  let issuenum := issue.id
  let issueid := make_id reponame issuenum
  remove_job st issueid

/-- Outcome of a Python call that may raise: `githubException` models
`github.GithubException`, `otherError` any other exception class. -/
inductive PyError where
  | githubException
  | otherError
deriving DecidableEq

/-- Outcomes of the four external platform-API calls made by `close_issue`. -/
structure CloseIssueApi where
  get_repo : Except PyError Unit
  get_issue : Except PyError Unit
  edit_state_closed : Except PyError Unit
  remove_from_labels : Except PyError Unit

/-- `close_issue(rn, num)`, source lines 38-46: closes the issue, then
tries to remove the trigger label with only that last call wrapped in
`try ... except GithubException: pass`. -/
def close_issue (api : CloseIssueApi) : Except PyError Unit :=
  match api.get_repo with
  | .error e => .error e
  | .ok _ =>
    match api.get_issue with
    | .error e => .error e
    | .ok _ =>
      match api.edit_state_closed with
      | .error e => .error e
      | .ok _ =>
        match api.remove_from_labels with
        | .ok _ => .ok ()
        | .error PyError.githubException => .ok ()
        | .error PyError.otherError => .error PyError.otherError

/-- `datetime.timedelta(weeks=1)`, in seconds. -/
def one_week : Nat := 7 * 24 * 60 * 60

structure LabeledResult where
  st : SchedState
  comments : List String
  status : Nat
deriving DecidableEq

/-- `issue_labeled(j)`, source lines 116-128. -/
def issue_labeled (st : SchedState) (now : Nat) (reponame : String)
    (issuenum issue_gh_id : Nat) (label_name : String) : LabeledResult :=
  let issue : Issue := ⟨⟨reponame⟩, issuenum, issue_gh_id⟩
  if label_name = triggerlabel then
    { st := schedule_close_issue st issue (now + one_week),
      comments := [autoclosemsg], status := 200 }
  else
    { st := st, comments := [], status := 200 }

/-- Side effects and result of one `issue_comment_created` call. -/
structure CommentResult where
  st : SchedState
  labels_added : List String
  labels_removed : List String
  comments : List String
  reactions : List (Nat × String)
  status : Nat
deriving DecidableEq

/-- The result of a comment event that changes nothing: scheduler state
unchanged, no labels touched, no comment, no reaction, HTTP 200. -/
def commentNoop (st : SchedState) : CommentResult :=
  { st := st, labels_added := [], labels_removed := [], comments := [],
    reactions := [], status := 200 }

/-- `issue_comment_created(j)`, source lines 131-159. `permOf` models
`repo.get_collaborator_permission`, `dateparse` models `dateparser.parse`
(an opaque `text -> optional timestamp` function per the spec); an
`.error` value is an uncaught Python exception. -/
def issue_comment_created (my_user : String) (permOf : String → String)
    (dateparse : String → Option Nat) (now : Nat) (st : SchedState)
    (reponame : String) (issuenum issue_gh_id : Nat)
    (body sender : String) (comment_id : Nat) : Except String CommentResult :=
  let issueid := make_id reponame issuenum
  let issue : Issue := ⟨⟨reponame⟩, issuenum, issue_gh_id⟩
  let perm := permOf sender
  let trigger := "@" ++ my_user ++ " autoclose"
  if strContains (strLower body) (strLower trigger) && (perm == "admin") then
    match dateparse (partitionAfter body "autoclose") with
    | some closedate =>
      if now < closedate then
        .ok { st := schedule_close_issue st issue closedate,
              labels_added := ["autoclose"], labels_removed := [],
              comments := [], reactions := [(comment_id, "+1")], status := 200 }
      else .ok (commentNoop st)
    | none => .ok (commentNoop st)
  else if (get_job st issueid).isSome then
    match remove_job st issueid with
    | .ok st2 =>
      .ok { st := st2, labels_added := [], labels_removed := [triggerlabel],
            comments := [noautoclosemsg], reactions := [], status := 200 }
    | .error e => .error e
  else .ok (commentNoop st)

/-- The payload fields `handle_webhook` itself reads; a `none` field is a
missing JSON key (Python `KeyError`). -/
structure Payload where
  action : Option String
  sender_login : Option String
  repo_full_name : Option String
deriving DecidableEq

/-- An inbound HTTP request as seen by `parse_payload`: `body_json = none`
models a body that `request.get_json()` rejects (`BadRequest`);
`sig_valid = false` models `gh_sig_valid` returning false or raising. -/
structure WebRequest where
  x_github_event : Option String
  body_json : Option Payload
  is_post : Bool
  sig_valid : Bool
deriving DecidableEq

/-- The handler-dispatch table, source lines 268-272. -/
def event_handlers : List (String × List String) :=
  [("issues", ["labeled"]), ("issue_comment", ["created"]), ("pull_request", ["opened"])]

/-- `handle_webhook(request)`, source lines 275-319, reduced to the HTTP
status it returns (every registered handler ends with
`Response("OK", 200)`). -/
def handle_webhook (my_user : String) (req : WebRequest) : Nat :=
  match req.x_github_event with
  | none => 400
  | some evtype =>
    match event_handlers.find? (fun p => p.1 == evtype) with
    | none => 200
    | some (_, actions) =>
      match req.body_json with
      | none => 400
      | some j =>
        match j.action with
        | none => 200
        | some action =>
          if !(actions.contains action) then 200
          else if j.sender_login == some my_user then 200
          else 200

/-- `parse_payload()`, source lines 333-346. -/
def parse_payload (my_user : String) (req : WebRequest) : Nat :=
  if !req.sig_valid then 401
  else if req.is_post then handle_webhook my_user req
  else 200

/-- A concrete issue shared by the closed witness statements: repository
`acme/repo`, issue number 42, platform-internal id 991. -/
def issue₀ : Issue := ⟨⟨"acme/repo"⟩, 42, 991⟩

/-- A pending job for issue `acme/repo#42`, used by closed statements. -/
def job₀ : Job := ⟨make_id "acme/repo" 42, 999, "acme/repo", 42⟩

theorem ofDigits_append (l : List Char) (c : Char) (acc : Nat) :
    ofDigits acc (l ++ [c]) = 10 * ofDigits acc l + (c.toNat - 48) := by
  induction l generalizing acc with
  | nil => rfl
  | cons d ds ih =>
    show ofDigits (10 * acc + (d.toNat - 48)) (ds ++ [c])
        = 10 * ofDigits (10 * acc + (d.toNat - 48)) ds + (c.toNat - 48)
    exact ih _

theorem digitChar_spec :
    ∀ k, k < 10 → (Nat.digitChar k).toNat - 48 = k ∧ (Nat.digitChar k).isDigit = true := by
  intro k hk
  interval_cases k <;> exact ⟨by decide, by decide⟩

theorem toDigitsCore_append (fuel : Nat) :
    ∀ (n : Nat) (ds : List Char),
      Nat.toDigitsCore 10 fuel n ds = Nat.toDigitsCore 10 fuel n [] ++ ds := by
  induction fuel with
  | zero => intro n ds; simp [Nat.toDigitsCore]
  | succ f ih =>
    intro n ds
    simp only [Nat.toDigitsCore]
    by_cases h : n / 10 = 0
    · simp [h]
    · simp only [h, if_false]
      rw [ih (n / 10) (Nat.digitChar (n % 10) :: ds), ih (n / 10) [Nat.digitChar (n % 10)]]
      simp

theorem ofDigits_toDigitsCore (fuel : Nat) :
    ∀ n, n < fuel → ofDigits 0 (Nat.toDigitsCore 10 fuel n []) = n := by
  induction fuel with
  | zero => intro n h; exact absurd h (Nat.not_lt_zero n)
  | succ f ih =>
    intro n h
    simp only [Nat.toDigitsCore]
    by_cases h0 : n / 10 = 0
    · have hn : n < 10 := by omega
      have hd := (digitChar_spec (n % 10) (by omega)).1
      simp only [h0, if_true]
      have hred : ofDigits 0 [Nat.digitChar (n % 10)]
          = 10 * 0 + ((Nat.digitChar (n % 10)).toNat - 48) := rfl
      rw [hred]
      omega
    · have hlt : n / 10 < f := by omega
      simp only [h0, if_false]
      rw [toDigitsCore_append f (n / 10) [Nat.digitChar (n % 10)]]
      rw [ofDigits_append, ih (n / 10) hlt]
      have hd := (digitChar_spec (n % 10) (by omega)).1
      omega

theorem toDigitsCore_all_digits (fuel : Nat) :
    ∀ (n : Nat) (ds : List Char), (∀ c ∈ ds, c.isDigit = true) →
      ∀ c ∈ Nat.toDigitsCore 10 fuel n ds, c.isDigit = true := by
  induction fuel with
  | zero => intro n ds hds; simpa [Nat.toDigitsCore] using hds
  | succ f ih =>
    intro n ds hds
    simp only [Nat.toDigitsCore]
    by_cases h : n / 10 = 0
    · simp only [h, if_true]
      intro c hc
      rcases List.mem_cons.mp hc with hc | hc
      · exact hc ▸ (digitChar_spec (n % 10) (by omega)).2
      · exact hds c hc
    · simp only [h, if_false]
      refine ih (n / 10) _ ?_
      intro c hc
      rcases List.mem_cons.mp hc with hc | hc
      · exact hc ▸ (digitChar_spec (n % 10) (by omega)).2
      · exact hds c hc

theorem toDigits_all_digits (n : Nat) : ∀ c ∈ Nat.toDigits 10 n, c.isDigit = true :=
  toDigitsCore_all_digits (n + 1) n [] (by intro c hc; cases hc)

theorem toDigits_ne_nil (n : Nat) : Nat.toDigits 10 n ≠ [] := by
  show Nat.toDigitsCore 10 (n + 1) n [] ≠ []
  simp only [Nat.toDigitsCore]
  by_cases h : n / 10 = 0
  · simp [h]
  · simp only [h, if_false]
    rw [toDigitsCore_append n (n / 10) [Nat.digitChar (n % 10)]]
    simp

theorem repr_data (n : Nat) : (Nat.repr n).data = Nat.toDigits 10 n := rfl

theorem ofDigits_repr (n : Nat) : ofDigits 0 (Nat.repr n).data = n := by
  rw [repr_data]
  exact ofDigits_toDigitsCore (n + 1) n (Nat.lt_succ_self n)

theorem repr_injective {m n : Nat} (h : Nat.repr m = Nat.repr n) : m = n := by
  have hd : (Nat.repr m).data = (Nat.repr n).data := by rw [h]
  have := ofDigits_repr m
  rw [hd, ofDigits_repr n] at this
  omega

theorem splitFirst_eq_none {needle l : List Char} (h : infixOf needle l = false) :
    splitFirst needle l = none := by
  induction l with
  | nil => rfl
  | cons c rest ih =>
    simp only [infixOf, Bool.or_eq_false_iff] at h
    simp only [splitFirst, h.1, ih h.2]
    simp

theorem splitLast_cons (needle : List Char) (c : Char) (rest : List Char) :
    splitLast needle (c :: rest) =
      match splitLast needle rest with
      | some (a, b) => some (c :: a, b)
      | none =>
        if isPre needle (c :: rest) then some ([], (c :: rest).drop needle.length)
        else none := rfl

theorem splitLast_eq_none {needle l : List Char} (h : infixOf needle l = false) :
    splitLast needle l = none := by
  induction l with
  | nil => rfl
  | cons c rest ih =>
    simp only [infixOf, Bool.or_eq_false_iff] at h
    rw [splitLast_cons, ih h.2]
    simp only [h.1]
    simp

theorem infixOf_sep_zero {d : List Char} (hd : ∀ c ∈ d, c ≠ '@') :
    infixOf sepChars d = false := by
  induction d with
  | nil => rfl
  | cons c rest ih =>
    have hc : c ≠ '@' := hd c (List.mem_cons_self c rest)
    have hb : ('@' == c) = false := beq_eq_false_iff_ne.mpr (fun hcontra => hc hcontra.symm)
    have hpre : isPre sepChars (c :: rest) = false := by
      simp [sepChars, isPre, hb]
    simp only [infixOf, hpre, Bool.false_or]
    exact ih (fun x hx => hd x (List.mem_cons_of_mem c hx))

theorem infixOf_sep_one {d : List Char} (hd : ∀ c ∈ d, c ≠ '@') :
    infixOf sepChars ('@' :: d) = false := by
  have hpre : isPre sepChars ('@' :: d) = false := by
    cases d with
    | nil => rfl
    | cons c rest =>
      have hc : c ≠ '@' := hd c (List.mem_cons_self c rest)
      have hb : ('@' == c) = false := beq_eq_false_iff_ne.mpr (fun hcontra => hc hcontra.symm)
      simp [sepChars, isPre, hb]
  simp only [infixOf, hpre, Bool.false_or]
  exact infixOf_sep_zero hd

theorem infixOf_sep_two {d : List Char} (hd : ∀ c ∈ d, c ≠ '@') :
    infixOf sepChars ('@' :: '@' :: d) = false := by
  have hpre : isPre sepChars ('@' :: '@' :: d) = false := by
    cases d with
    | nil => rfl
    | cons c rest =>
      have hc : c ≠ '@' := hd c (List.mem_cons_self c rest)
      have hb : ('@' == c) = false := beq_eq_false_iff_ne.mpr (fun hcontra => hc hcontra.symm)
      simp [sepChars, isPre, hb]
  simp only [infixOf, hpre, Bool.false_or]
  exact infixOf_sep_one hd

theorem splitLast_sep_append {d : List Char} (hd : ∀ c ∈ d, c ≠ '@') :
    ∀ r : List Char, splitLast sepChars (r ++ sepChars ++ d) = some (r, d) := by
  intro r
  induction r with
  | nil =>
    show splitLast sepChars ('@' :: '@' :: '@' :: d) = some ([], d)
    have h2 : splitLast sepChars ('@' :: '@' :: d) = none :=
      splitLast_eq_none (infixOf_sep_two hd)
    rw [splitLast_cons, h2]
    rfl
  | cons c r ih =>
    show splitLast sepChars (c :: (r ++ sepChars ++ d)) = some (c :: r, d)
    rw [splitLast_cons, ih]

theorem make_id_data (r : String) (n : Nat) :
    (make_id r n).data = r.data ++ sepChars ++ (Nat.repr n).data := by
  show (r ++ "@@@" ++ Nat.repr n).data = _
  rw [String.data_append, String.data_append]
  rfl

theorem repr_no_at (n : Nat) : ∀ c ∈ (Nat.repr n).data, c ≠ '@' := by
  intro c hc heq
  have hdig := toDigits_all_digits n c (by rw [← repr_data]; exact hc)
  rw [heq] at hdig
  exact absurd hdig (by decide)

theorem parse_make_id (r : String) (n : Nat) : parse_id (make_id r n) = some (r, n) := by
  unfold parse_id
  rw [make_id_data, splitLast_sep_append (repr_no_at n) r.data]
  have h1 : (Nat.repr n).data.isEmpty = false := by
    have hne : (Nat.repr n).data ≠ [] := by rw [repr_data]; exact toDigits_ne_nil n
    cases hh : (Nat.repr n).data with
    | nil => exact absurd hh hne
    | cons a l => rfl
  have h2 : (Nat.repr n).data.all Char.isDigit = true :=
    List.all_eq_true.mpr (fun c hc =>
      toDigits_all_digits n c (by rw [← repr_data]; exact hc))
  show (if (!(Nat.repr n).data.isEmpty && (Nat.repr n).data.all Char.isDigit) = true
      then some (({ data := r.data } : String), ofDigits 0 (Nat.repr n).data)
      else none) = some (r, n)
  rw [h1, h2]
  simp only [Bool.not_false, Bool.and_true, if_true]
  rw [ofDigits_repr]

theorem make_id_injective {r₁ r₂ : String} {n₁ n₂ : Nat}
    (h : make_id r₁ n₁ = make_id r₂ n₂) : r₁ = r₂ ∧ n₁ = n₂ := by
  have h1 := parse_make_id r₁ n₁
  rw [h, parse_make_id r₂ n₂] at h1
  simp only [Option.some.injEq, Prod.mk.injEq] at h1
  exact ⟨h1.1.symm, h1.2.symm⟩

theorem make_id_ne_of_num_ne {r : String} {a b : Nat} (h : a ≠ b) :
    make_id r a ≠ make_id r b :=
  fun heq => h (make_id_injective heq).2

theorem filter_ne_then_eq (st : SchedState) (i : String) :
    (st.filter (fun j => j.id != i)).filter (fun j => j.id == i) = [] := by
  induction st with
  | nil => rfl
  | cons a l ih =>
    by_cases hb : (a.id == i) = true
    · simp [List.filter_cons, hb, bne, ih]
    · simp only [Bool.not_eq_true] at hb
      simp [List.filter_cons, hb, bne, ih]

theorem find?_filter_ne (st : SchedState) (i : String) :
    (st.filter (fun j => j.id != i)).find? (fun j => j.id == i) = none := by
  refine List.find?_eq_none.mpr fun x hx => ?_
  have hmem := (List.mem_filter.mp hx).2
  simp only [bne, Bool.not_eq_true'] at hmem
  simp [hmem]

theorem filter_add_job (st : SchedState) (i : String) (t : Nat)
    (rn : String) (num : Nat) :
    (add_job st i t rn num).filter (fun j => j.id == i) = [⟨i, t, rn, num⟩] := by
  unfold add_job
  rw [List.filter_append, filter_ne_then_eq]
  simp [List.filter_cons]

theorem get_job_add_job (st : SchedState) (i : String) (t : Nat)
    (rn : String) (num : Nat) :
    get_job (add_job st i t rn num) i = some ⟨i, t, rn, num⟩ := by
  unfold get_job add_job
  rw [List.find?_append, find?_filter_ne]
  simp [List.find?_cons]

theorem remove_job_of_absent {st : SchedState} {i : String}
    (h : get_job st i = none) :
    remove_job st i = .error "JobLookupError" := by
  unfold remove_job
  have ha : st.any (fun j => j.id == i) = false := by
    rw [List.any_eq_false]
    intro x hx
    exact List.find?_eq_none.mp h x hx
  rw [ha]
  simp

theorem remove_job_of_present {st : SchedState} {i : String} {j : Job}
    (h : get_job st i = some j) :
    remove_job st i = .ok (st.filter (fun x => x.id != i)) := by
  unfold remove_job
  have h2 : st.find? (fun x => x.id == i) = some j := h
  have hp := List.find?_some h2
  have ha : st.any (fun x => x.id == i) = true :=
    List.any_eq_true.mpr ⟨j, List.mem_of_find?_eq_some h2, hp⟩
  rw [ha]
  simp

theorem get_job_single_ne {i i' : String} (h : (i == i') = false)
    (t : Nat) (rn : String) (num : Nat) :
    get_job [⟨i, t, rn, num⟩] i' = none := by
  unfold get_job
  simp [List.find?, h]

/-- C1: scheduling the same issue twice with two different run times leaves
exactly one pending job under that issue's job id, and its run time is the
one given by the later call -- the earlier job is replaced, so the close
action can fire at most once for that id. -/
theorem C1_schedule_twice_replaces (st : SchedState) (issue : Issue)
    (t₁ t₂ : Nat) (_h : t₁ ≠ t₂) :
    ((schedule_close_issue (schedule_close_issue st issue t₁) issue t₂).filter
        (fun j => j.id == make_id issue.repository.full_name issue.number)).length = 1
    ∧ get_job (schedule_close_issue (schedule_close_issue st issue t₁) issue t₂)
        (make_id issue.repository.full_name issue.number)
      = some ⟨make_id issue.repository.full_name issue.number, t₂,
          issue.repository.full_name, issue.number⟩ := by
  refine ⟨?_, get_job_add_job _ _ _ _ _⟩
  rw [show schedule_close_issue (schedule_close_issue st issue t₁) issue t₂
      = add_job (schedule_close_issue st issue t₁)
          (make_id issue.repository.full_name issue.number) t₂
          issue.repository.full_name issue.number from rfl]
  rw [filter_add_job]
  rfl

theorem C1_schedule_twice_replaces_witness :
    ((schedule_close_issue (schedule_close_issue [] issue₀ 1) issue₀ 2).filter
        (fun j => j.id == make_id issue₀.repository.full_name issue₀.number)).length = 1
    ∧ get_job (schedule_close_issue (schedule_close_issue [] issue₀ 1) issue₀ 2)
        (make_id issue₀.repository.full_name issue₀.number)
      = some ⟨make_id issue₀.repository.full_name issue₀.number, 2,
          issue₀.repository.full_name, issue₀.number⟩ :=
  C1_schedule_twice_replaces [] issue₀ 1 2 (by decide)

/-- C2: `cancel_close_issue` builds its job id from the issue's internal id
(line 78) while `schedule_close_issue` uses the issue number (line 57), so
whenever the two differ the ids differ, and cancelling right after
scheduling fails to find the job (`remove_job` raises `JobLookupError`). -/
theorem C2_cancel_uses_wrong_id (issue : Issue) (t : Nat)
    (h : issue.id ≠ issue.number) :
    make_id issue.repository.full_name issue.id
      ≠ make_id issue.repository.full_name issue.number
    ∧ cancel_close_issue (schedule_close_issue [] issue t) issue
      = .error "JobLookupError" := by
  have hne := @make_id_ne_of_num_ne issue.repository.full_name issue.id issue.number h
  refine ⟨hne, ?_⟩
  show remove_job (add_job [] (make_id issue.repository.full_name issue.number) t
      issue.repository.full_name issue.number)
      (make_id issue.repository.full_name issue.id) = .error "JobLookupError"
  apply remove_job_of_absent
  have hb : (make_id issue.repository.full_name issue.number
      == make_id issue.repository.full_name issue.id) = false :=
    beq_eq_false_iff_ne.mpr (fun heq => hne heq.symm)
  exact get_job_single_ne hb t issue.repository.full_name issue.number

theorem C2_cancel_uses_wrong_id_witness :
    make_id issue₀.repository.full_name issue₀.id
      ≠ make_id issue₀.repository.full_name issue₀.number
    ∧ cancel_close_issue (schedule_close_issue [] issue₀ 5) issue₀
      = .error "JobLookupError" :=
  C2_cancel_uses_wrong_id issue₀ 5 (by decide)

/-- C3: the job-id construction (concatenation with the `"@@@"` separator)
is injective, and `parse_id` applied to `make_id r n` returns exactly
`(r, n)`. -/
theorem C3_make_id_injective_parse_inverse (r₁ r₂ : String) (n₁ n₂ : Nat) :
    (make_id r₁ n₁ = make_id r₂ n₂ → r₁ = r₂ ∧ n₁ = n₂)
    ∧ parse_id (make_id r₁ n₁) = some (r₁, n₁) :=
  ⟨make_id_injective, parse_make_id r₁ n₁⟩

theorem C3_make_id_injective_parse_inverse_witness :
    ("acme/repo" = "acme/repo" ∧ (42 : Nat) = 42)
    ∧ parse_id (make_id "other/repo" 7) = some ("other/repo", 7) :=
  ⟨(C3_make_id_injective_parse_inverse "acme/repo" "acme/repo" 42 42).1 rfl,
   (C3_make_id_injective_parse_inverse "other/repo" "other/repo" 7 7).2⟩

theorem icc_cond_false_noop
    {u : String} {permOf : String → String} {dp : String → Option Nat}
    {now : Nat} {st : SchedState} {rn : String} {num gid : Nat}
    {body sender : String} {cid : Nat}
    (hc : (strContains (strLower body) (strLower ("@" ++ u ++ " autoclose"))
        && (permOf sender == "admin")) = false)
    (hn : get_job st (make_id rn num) = none) :
    issue_comment_created u permOf dp now st rn num gid body sender cid
      = .ok (commentNoop st) := by
  unfold issue_comment_created
  simp only [hc, hn]
  simp

theorem icc_cond_false_cancel
    {u : String} {permOf : String → String} {dp : String → Option Nat}
    {now : Nat} {st : SchedState} {rn : String} {num gid : Nat}
    {body sender : String} {cid : Nat}
    (hc : (strContains (strLower body) (strLower ("@" ++ u ++ " autoclose"))
        && (permOf sender == "admin")) = false)
    {j : Job} (hj : get_job st (make_id rn num) = some j) :
    issue_comment_created u permOf dp now st rn num gid body sender cid
      = .ok { st := st.filter (fun x => x.id != make_id rn num),
              labels_added := [], labels_removed := [triggerlabel],
              comments := [noautoclosemsg], reactions := [], status := 200 } := by
  unfold issue_comment_created
  simp only [hc, hj, Option.isSome_some, remove_job_of_present hj]
  simp

theorem icc_cond_true_not_future
    {u : String} {permOf : String → String} {dp : String → Option Nat}
    {now : Nat} {st : SchedState} {rn : String} {num gid : Nat}
    {body sender : String} {cid : Nat}
    (hc : (strContains (strLower body) (strLower ("@" ++ u ++ " autoclose"))
        && (permOf sender == "admin")) = true)
    (hd : ∀ d, dp (partitionAfter body "autoclose") = some d → d ≤ now) :
    issue_comment_created u permOf dp now st rn num gid body sender cid
      = .ok (commentNoop st) := by
  unfold issue_comment_created
  simp only [hc]
  cases hdp : dp (partitionAfter body "autoclose") with
  | none => simp [hdp]
  | some d =>
    have hle := hd d hdp
    simp only [hdp, if_true]
    rw [if_neg (by omega)]

theorem icc_cond_true_future
    {u : String} {permOf : String → String} {dp : String → Option Nat}
    {now : Nat} {st : SchedState} {rn : String} {num gid : Nat}
    {body sender : String} {cid : Nat}
    (hc : (strContains (strLower body) (strLower ("@" ++ u ++ " autoclose"))
        && (permOf sender == "admin")) = true)
    {d : Nat} (hd : dp (partitionAfter body "autoclose") = some d)
    (hfut : now < d) :
    issue_comment_created u permOf dp now st rn num gid body sender cid
      = .ok { st := schedule_close_issue st ⟨⟨rn⟩, num, gid⟩ d,
              labels_added := ["autoclose"], labels_removed := [],
              comments := [], reactions := [(cid, "+1")], status := 200 } := by
  unfold issue_comment_created
  simp only [hc]
  simp only [hd, if_true]
  rw [if_pos hfut]

/-- C4 counterexample: on an empty job store (so no id has a pending job)
`cancel_close_issue` -- the source's cancel operation, an unguarded
`scheduler.remove_job` -- does not complete as a no-op: it raises
`JobLookupError`, as does `remove_job` itself. -/
theorem C4_counterexample_cancel_raises :
    get_job [] (make_id issue₀.repository.full_name issue₀.id) = none
    ∧ cancel_close_issue [] issue₀ = .error "JobLookupError"
    ∧ remove_job [] "acme/repo@@@42" = .error "JobLookupError" :=
  ⟨rfl, rfl, rfl⟩

/-- C4 amended: cancelling an id with no pending job is a no-op without
error only on the guarded path the webhook handler actually takes
(`issue_comment_created` checks `get_job` first); the raw cancel operation
(`scheduler.remove_job`, used unguarded by `cancel_close_issue`) instead
raises `JobLookupError` on such an id. -/
theorem C4_amended_cancel_semantics (st : SchedState) (i : String)
    (hi : get_job st i = none)
    (u : String) (permOf : String → String) (dp : String → Option Nat)
    (now : Nat) (rn : String) (num gid : Nat) (body sender : String) (cid : Nat)
    (hc : (strContains (strLower body) (strLower ("@" ++ u ++ " autoclose"))
        && (permOf sender == "admin")) = false)
    (hn : get_job st (make_id rn num) = none) :
    remove_job st i = .error "JobLookupError"
    ∧ issue_comment_created u permOf dp now st rn num gid body sender cid
      = .ok (commentNoop st) :=
  ⟨remove_job_of_absent hi, icc_cond_false_noop hc hn⟩

theorem C4_amended_cancel_semantics_witness :
    remove_job [] "a@@@1" = .error "JobLookupError"
    ∧ issue_comment_created "bot" (fun _ => "read") (fun _ => none) 0 []
        "acme/repo" 42 991 "hello world" "alice" 7 = .ok (commentNoop []) :=
  C4_amended_cancel_semantics [] "a@@@1" rfl "bot" (fun _ => "read")
    (fun _ => none) 0 "acme/repo" 42 991 "hello world" "alice" 7
    (by decide) rfl

/-- C5 counterexample: an admin comment containing the trigger token whose
trailing text does not parse to a date, on an issue with a pending job,
cancels nothing: the handler returns with the scheduler state unchanged,
no label removed and no notice posted -- the claim says the job would be
cancelled here. -/
theorem C5_counterexample_admin_unparseable :
    (get_job [job₀] (make_id "acme/repo" 42)).isSome = true
    ∧ issue_comment_created "bot" (fun _ => "admin") (fun _ => none) 0 [job₀]
        "acme/repo" 42 991 "@bot autoclose whenever" "alice" 7
      = .ok (commentNoop [job₀])
    ∧ (commentNoop [job₀]).st = [job₀]
    ∧ (commentNoop [job₀]).labels_removed = []
    ∧ (commentNoop [job₀]).comments = [] := by
  refine ⟨rfl, ?_, rfl, rfl, rfl⟩
  exact icc_cond_true_not_future (by decide) (fun d hd => by simp at hd)

/-- C5 amended: when the comment contains the bot's command token and the
sender is an admin, a trailing text that parses to a future timestamp
schedules the close (adding the label and reacting), and otherwise the
handler does nothing at all, even with a job pending; when the
token-and-admin test fails, a pending job is cancelled (label removed,
notice posted) and otherwise nothing happens. The cancellation notice is
posted exactly when the token-and-admin test fails and a job is pending
for the issue. -/
theorem C5_amended_comment_branches (u : String) (permOf : String → String)
    (dp : String → Option Nat) (now : Nat) (st : SchedState) (rn : String)
    (num gid : Nat) (body sender : String) (cid : Nat) :
    ((strContains (strLower body) (strLower ("@" ++ u ++ " autoclose"))
        && (permOf sender == "admin")) = true →
      (∀ d, dp (partitionAfter body "autoclose") = some d → d ≤ now) →
      issue_comment_created u permOf dp now st rn num gid body sender cid
        = .ok (commentNoop st))
    ∧ ((strContains (strLower body) (strLower ("@" ++ u ++ " autoclose"))
        && (permOf sender == "admin")) = true →
      ∀ d, dp (partitionAfter body "autoclose") = some d → now < d →
      issue_comment_created u permOf dp now st rn num gid body sender cid
        = .ok { st := schedule_close_issue st ⟨⟨rn⟩, num, gid⟩ d,
                labels_added := ["autoclose"], labels_removed := [],
                comments := [], reactions := [(cid, "+1")], status := 200 })
    ∧ ((strContains (strLower body) (strLower ("@" ++ u ++ " autoclose"))
        && (permOf sender == "admin")) = false →
      ∀ j, get_job st (make_id rn num) = some j →
      issue_comment_created u permOf dp now st rn num gid body sender cid
        = .ok { st := st.filter (fun x => x.id != make_id rn num),
                labels_added := [], labels_removed := [triggerlabel],
                comments := [noautoclosemsg], reactions := [], status := 200 })
    ∧ ((strContains (strLower body) (strLower ("@" ++ u ++ " autoclose"))
        && (permOf sender == "admin")) = false →
      get_job st (make_id rn num) = none →
      issue_comment_created u permOf dp now st rn num gid body sender cid
        = .ok (commentNoop st))
    ∧ ((∃ res, issue_comment_created u permOf dp now st rn num gid body sender cid
          = .ok res ∧ res.comments = [noautoclosemsg])
        ↔ ((strContains (strLower body) (strLower ("@" ++ u ++ " autoclose"))
            && (permOf sender == "admin")) = false
          ∧ (get_job st (make_id rn num)).isSome = true)) := by
  refine ⟨fun hc hd => icc_cond_true_not_future hc hd,
    fun hc d hd hf => icc_cond_true_future hc hd hf,
    fun hc _ hj => icc_cond_false_cancel hc hj,
    fun hc hn => icc_cond_false_noop hc hn, ?_, ?_⟩
  · rintro ⟨res, hres, hcom⟩
    by_cases hc : (strContains (strLower body) (strLower ("@" ++ u ++ " autoclose"))
        && (permOf sender == "admin")) = true
    · exfalso
      cases hdp : dp (partitionAfter body "autoclose") with
      | none =>
        rw [icc_cond_true_not_future hc
          (fun d hd => by rw [hdp] at hd; simp at hd)] at hres
        simp only [Except.ok.injEq] at hres
        subst hres
        simp [commentNoop] at hcom
      | some d =>
        by_cases hf : now < d
        · rw [icc_cond_true_future hc hdp hf] at hres
          simp only [Except.ok.injEq] at hres
          subst hres
          simp at hcom
        · rw [icc_cond_true_not_future hc (fun d' hd' => by
            rw [hdp] at hd'
            simp only [Option.some.injEq] at hd'
            omega)] at hres
          simp only [Except.ok.injEq] at hres
          subst hres
          simp [commentNoop] at hcom
    · rw [Bool.not_eq_true] at hc
      cases hg : get_job st (make_id rn num) with
      | none =>
        exfalso
        rw [icc_cond_false_noop hc hg] at hres
        simp only [Except.ok.injEq] at hres
        subst hres
        simp [commentNoop] at hcom
      | some j => exact ⟨hc, rfl⟩
  · rintro ⟨hc, hsome⟩
    cases hg : get_job st (make_id rn num) with
    | none => rw [hg] at hsome; simp at hsome
    | some j => exact ⟨_, icc_cond_false_cancel hc hg, rfl⟩

theorem C5_amended_comment_branches_witness :
    issue_comment_created "bot" (fun _ => "admin") (fun _ => none) 0 []
      "acme/repo" 42 991 "@bot autoclose whenever" "alice" 7
      = .ok (commentNoop [])
    ∧ issue_comment_created "bot" (fun _ => "admin") (fun _ => some 60) 0 []
        "acme/repo" 42 991 "@bot autoclose tomorrow" "alice" 7
      = .ok { st := schedule_close_issue [] ⟨⟨"acme/repo"⟩, 42, 991⟩ 60,
              labels_added := ["autoclose"], labels_removed := [],
              comments := [], reactions := [(7, "+1")], status := 200 }
    ∧ issue_comment_created "bot" (fun _ => "read") (fun _ => some 50) 0 [job₀]
        "acme/repo" 42 991 "@bot autoclose tomorrow" "mallory" 8
      = .ok { st := [job₀].filter (fun x => x.id != make_id "acme/repo" 42),
              labels_added := [], labels_removed := [triggerlabel],
              comments := [noautoclosemsg], reactions := [], status := 200 }
    ∧ issue_comment_created "bot" (fun _ => "read") (fun _ => some 50) 0 []
        "acme/repo" 42 991 "@bot autoclose tomorrow" "mallory" 8
      = .ok (commentNoop []) :=
  ⟨(C5_amended_comment_branches "bot" (fun _ => "admin") (fun _ => none) 0 []
      "acme/repo" 42 991 "@bot autoclose whenever" "alice" 7).1 (by decide)
      (fun d hd => by simp at hd),
   (C5_amended_comment_branches "bot" (fun _ => "admin") (fun _ => some 60) 0 []
      "acme/repo" 42 991 "@bot autoclose tomorrow" "alice" 7).2.1 (by decide)
      60 rfl (by decide),
   (C5_amended_comment_branches "bot" (fun _ => "read") (fun _ => some 50) 0 [job₀]
      "acme/repo" 42 991 "@bot autoclose tomorrow" "mallory" 8).2.2.1 (by decide)
      job₀ rfl,
   (C5_amended_comment_branches "bot" (fun _ => "read") (fun _ => some 50) 0 []
      "acme/repo" 42 991 "@bot autoclose tomorrow" "mallory" 8).2.2.2.1 (by decide)
      rfl⟩

/-- C6 counterexample: a non-admin posting the command on an issue with a
pending job removes that job (and the trigger label, posting the notice):
handling the event does modify the pending job, contrary to the claim. -/
theorem C6_counterexample_nonadmin_cancels :
    (get_job [job₀] (make_id "acme/repo" 42)).isSome = true
    ∧ issue_comment_created "bot" (fun _ => "read") (fun _ => some 100) 0 [job₀]
        "acme/repo" 42 991 "@bot autoclose tomorrow" "mallory" 3
      = .ok { st := [], labels_added := [], labels_removed := [triggerlabel],
              comments := [noautoclosemsg], reactions := [], status := 200 }
    ∧ get_job [] (make_id "acme/repo" 42) = none := by
  refine ⟨rfl, ?_, rfl⟩
  have h := @icc_cond_false_cancel "bot" (fun _ => "read") (fun _ => some 100)
      0 [job₀] "acme/repo" 42 991 "@bot autoclose tomorrow" "mallory" 3
      (by decide) job₀ rfl
  rw [h]
  rfl

/-- C6 amended: a comment from a non-admin never schedules a job, and is a
pure no-op when no job is pending for the issue; but when a job is
pending, the handler's else-branch cancels it (any comment failing the
token-and-admin test counts as activity), so the permission check does not
shield a pending job from non-admin comments. -/
theorem C6_amended_nonadmin (u : String) (permOf : String → String)
    (dp : String → Option Nat) (now : Nat) (st : SchedState) (rn : String)
    (num gid : Nat) (body sender : String) (cid : Nat)
    (hperm : permOf sender ≠ "admin") :
    (get_job st (make_id rn num) = none →
      issue_comment_created u permOf dp now st rn num gid body sender cid
        = .ok (commentNoop st))
    ∧ (∀ j, get_job st (make_id rn num) = some j →
      issue_comment_created u permOf dp now st rn num gid body sender cid
        = .ok { st := st.filter (fun x => x.id != make_id rn num),
                labels_added := [], labels_removed := [triggerlabel],
                comments := [noautoclosemsg], reactions := [], status := 200 }) := by
  have hb : (permOf sender == "admin") = false := beq_eq_false_iff_ne.mpr hperm
  have hc : (strContains (strLower body) (strLower ("@" ++ u ++ " autoclose"))
      && (permOf sender == "admin")) = false := by rw [hb]; simp
  exact ⟨fun hn => icc_cond_false_noop hc hn, fun _ hj => icc_cond_false_cancel hc hj⟩

theorem C6_amended_nonadmin_witness :
    issue_comment_created "bot" (fun _ => "write") (fun _ => some 9) 4 []
      "acme/repo" 42 991 "@bot autoclose tomorrow" "eve" 2
      = .ok (commentNoop [])
    ∧ issue_comment_created "bot" (fun _ => "write") (fun _ => some 9) 4 [job₀]
        "acme/repo" 42 991 "@bot autoclose tomorrow" "eve" 2
      = .ok { st := [job₀].filter (fun x => x.id != make_id "acme/repo" 42),
              labels_added := [], labels_removed := [triggerlabel],
              comments := [noautoclosemsg], reactions := [], status := 200 } :=
  ⟨(C6_amended_nonadmin "bot" (fun _ => "write") (fun _ => some 9) 4 []
      "acme/repo" 42 991 "@bot autoclose tomorrow" "eve" 2 (by decide)).1 rfl,
   (C6_amended_nonadmin "bot" (fun _ => "write") (fun _ => some 9) 4 [job₀]
      "acme/repo" 42 991 "@bot autoclose tomorrow" "eve" 2 (by decide)).2 job₀ rfl⟩

/-- C7 counterexample: a platform-API failure (`GithubException`) in the
issue-close step escapes `close_issue` as an uncaught exception instead of
being caught and logged inside it. -/
theorem C7_counterexample_edit_failure_escapes :
    close_issue ⟨.ok (), .ok (), .error .githubException, .ok ()⟩
      = .error PyError.githubException := rfl

/-- C7 amended: only a `GithubException` raised by the label-removal step
is caught inside `close_issue` (silently swallowed, not logged); every
other failure -- from the `get_repo` or `get_issue` lookups, from the
issue-close (`edit`) step, or a non-`GithubException` from the
label-removal step -- propagates out of `close_issue` as an uncaught
exception. -/
theorem C7_amended_close_issue (api : CloseIssueApi) (e : PyError) :
    (api.get_repo = .ok () → api.get_issue = .ok () →
      api.edit_state_closed = .ok () →
      api.remove_from_labels = .error .githubException →
      close_issue api = .ok ())
    ∧ (api.get_repo = .ok () → api.get_issue = .ok () →
      api.edit_state_closed = .ok () →
      api.remove_from_labels = .error .otherError →
      close_issue api = .error PyError.otherError)
    ∧ (api.get_repo = .error e → close_issue api = .error e)
    ∧ (api.get_repo = .ok () → api.get_issue = .error e →
      close_issue api = .error e)
    ∧ (api.get_repo = .ok () → api.get_issue = .ok () →
      api.edit_state_closed = .error e → close_issue api = .error e) := by
  refine ⟨?_, ?_, ?_, ?_, ?_⟩
  · intro h1 h2 h3 h4
    unfold close_issue
    rw [h1, h2, h3, h4]
  · intro h1 h2 h3 h4
    unfold close_issue
    rw [h1, h2, h3, h4]
  · intro h1
    unfold close_issue
    rw [h1]
  · intro h1 h2
    unfold close_issue
    rw [h1, h2]
  · intro h1 h2 h3
    unfold close_issue
    rw [h1, h2, h3]

theorem C7_amended_close_issue_witness :
    close_issue ⟨.ok (), .ok (), .ok (), .error .githubException⟩ = .ok ()
    ∧ close_issue ⟨.ok (), .ok (), .ok (), .error .otherError⟩
      = .error PyError.otherError
    ∧ close_issue ⟨.error .githubException, .ok (), .ok (), .ok ()⟩
      = .error PyError.githubException
    ∧ close_issue ⟨.ok (), .error .githubException, .ok (), .ok ()⟩
      = .error PyError.githubException
    ∧ close_issue ⟨.ok (), .ok (), .error .otherError, .ok ()⟩
      = .error PyError.otherError :=
  ⟨(C7_amended_close_issue ⟨.ok (), .ok (), .ok (), .error .githubException⟩
      PyError.otherError).1 rfl rfl rfl rfl,
   (C7_amended_close_issue ⟨.ok (), .ok (), .ok (), .error .otherError⟩
      PyError.otherError).2.1 rfl rfl rfl rfl,
   (C7_amended_close_issue ⟨.error .githubException, .ok (), .ok (), .ok ()⟩
      PyError.githubException).2.2.1 rfl,
   (C7_amended_close_issue ⟨.ok (), .error .githubException, .ok (), .ok ()⟩
      PyError.githubException).2.2.2.1 rfl rfl,
   (C7_amended_close_issue ⟨.ok (), .ok (), .error .otherError, .ok ()⟩
      PyError.otherError).2.2.2.2 rfl rfl rfl⟩

/-- C8: a label-applied event whose label equals the trigger label
schedules a close of the issue at `now + 1 week` and posts the explanatory
comment; any other label changes nothing. -/
theorem C8_issue_labeled (st : SchedState) (now : Nat) (rn : String)
    (num gid : Nat) (lbl : String) :
    (lbl = triggerlabel →
      issue_labeled st now rn num gid lbl
        = { st := schedule_close_issue st ⟨⟨rn⟩, num, gid⟩ (now + one_week),
            comments := [autoclosemsg], status := 200 }
      ∧ get_job (issue_labeled st now rn num gid lbl).st (make_id rn num)
        = some ⟨make_id rn num, now + one_week, rn, num⟩)
    ∧ (lbl ≠ triggerlabel →
      issue_labeled st now rn num gid lbl
        = { st := st, comments := [], status := 200 }) := by
  constructor
  · intro hl
    have he : issue_labeled st now rn num gid lbl
        = { st := schedule_close_issue st ⟨⟨rn⟩, num, gid⟩ (now + one_week),
            comments := [autoclosemsg], status := 200 } := by
      unfold issue_labeled
      rw [if_pos hl]
    refine ⟨he, ?_⟩
    rw [he]
    exact get_job_add_job _ _ _ _ _
  · intro hl
    unfold issue_labeled
    rw [if_neg hl]

theorem C8_issue_labeled_witness :
    (issue_labeled [] 100 "acme/repo" 42 991 "autoclose"
        = { st := schedule_close_issue [] ⟨⟨"acme/repo"⟩, 42, 991⟩ (100 + one_week),
            comments := [autoclosemsg], status := 200 }
      ∧ get_job (issue_labeled [] 100 "acme/repo" 42 991 "autoclose").st
          (make_id "acme/repo" 42)
        = some ⟨make_id "acme/repo" 42, 100 + one_week, "acme/repo", 42⟩)
    ∧ issue_labeled [] 100 "acme/repo" 42 991 "bug"
        = { st := [], comments := [], status := 200 } :=
  ⟨(C8_issue_labeled [] 100 "acme/repo" 42 991 "autoclose").1 rfl,
   (C8_issue_labeled [] 100 "acme/repo" 42 991 "bug").2 (by decide)⟩

/-- Every payload that reaches a registered handler is answered 200. -/
theorem handle_webhook_json_200 (u ev : String) (j : Payload) (b s : Bool)
    (pr : String × List String)
    (hf : event_handlers.find? (fun p => p.1 == ev) = some pr) :
    handle_webhook u ⟨some ev, some j, b, s⟩ = 200 := by
  obtain ⟨evn, acts⟩ := pr
  unfold handle_webhook
  dsimp only
  rw [hf]
  dsimp only
  cases ha : j.action with
  | none => rfl
  | some a =>
    by_cases h1 : acts.contains a = true
    · simp only [h1, Bool.not_true, Bool.false_eq_true, if_false]
      by_cases h2 : (j.sender_login == some u) = true
      · simp [h2]
      · simp only [Bool.not_eq_true] at h2
        simp [h2]
    · simp only [Bool.not_eq_true] at h1
      simp [h1]

/-- C9 counterexample: a POST with a valid signature, an unrecognized
event type and a body that is not parseable JSON is answered 200, not 400:
the event-type lookup happens before the body is parsed. -/
theorem C9_counterexample_unknown_event_bad_json :
    (WebRequest.mk (some "deployment") none true true).body_json = none
    ∧ parse_payload "bot" ⟨some "deployment", none, true, true⟩ = 200 :=
  ⟨rfl, rfl⟩

/-- C9 amended: the endpoint answers 401 exactly when signature
verification fails; given a valid signature and a POST it answers 400
exactly when the `X-GitHub-Event` header is missing or the event type is
recognized and the body is not parseable JSON (an unrecognized event type
is acknowledged 200 before the body is parsed); everything else is
answered 200. -/
theorem C9_amended_statuses (u : String) (req : WebRequest) :
    (parse_payload u req = 401 ↔ req.sig_valid = false)
    ∧ (parse_payload u req = 400 ↔ (req.sig_valid = true ∧ req.is_post = true
        ∧ (req.x_github_event = none
           ∨ (∃ ev, req.x_github_event = some ev
              ∧ (event_handlers.find? (fun p => p.1 == ev)).isSome = true
              ∧ req.body_json = none))))
    ∧ (parse_payload u req ≠ 401 → parse_payload u req ≠ 400 →
        parse_payload u req = 200) := by
  obtain ⟨ev?, j?, post, sig⟩ := req
  cases sig with
  | false => refine ⟨?_, ?_, ?_⟩ <;> simp [parse_payload]
  | true =>
    cases post with
    | false => refine ⟨?_, ?_, ?_⟩ <;> simp [parse_payload]
    | true =>
      cases ev? with
      | none => refine ⟨?_, ?_, ?_⟩ <;> simp [parse_payload, handle_webhook]
      | some ev =>
        cases hf : event_handlers.find? (fun p => p.1 == ev) with
        | none =>
          refine ⟨?_, ?_, ?_⟩ <;> simp [parse_payload, handle_webhook, hf]
          intro x hx
          have hn := List.find?_eq_none.mp hf _ hx
          simp at hn
        | some pr =>
          cases j? with
          | none =>
            refine ⟨?_, ?_, ?_⟩ <;> simp [parse_payload, handle_webhook, hf]
            have hm := List.mem_of_find?_eq_some hf
            have hp := List.find?_some hf
            have hev : pr.1 = ev := by simpa using hp
            exact ⟨pr.2, by rw [← hev]; exact hm⟩
          | some j =>
            have h200 := handle_webhook_json_200 u ev j true true pr hf
            refine ⟨?_, ?_, ?_⟩ <;> simp [parse_payload, h200, hf]

theorem C9_amended_statuses_witness :
    parse_payload "bot" ⟨some "issues", some ⟨some "labeled", some "alice", some "acme/repo"⟩, true, true⟩ = 200 :=
  (C9_amended_statuses "bot"
      ⟨some "issues", some ⟨some "labeled", some "alice", some "acme/repo"⟩, true, true⟩).2.2
    (by decide) (by decide)

/-- C10: the trigger test lowercases both sides, but the date text is
extracted by partitioning the original body on the lowercase literal
`"autoclose"`; when the command word appears only in a non-lowercase
form, the branch is entered with an empty extracted date text, so nothing
is scheduled and nothing is cancelled. -/
theorem C10_uppercase_command_not_scheduled (u : String) (permOf : String → String)
    (dp : String → Option Nat) (now : Nat) (st : SchedState) (rn : String)
    (num gid : Nat) (body sender : String) (cid : Nat)
    (h1 : strContains (strLower body) (strLower ("@" ++ u ++ " autoclose")) = true)
    (h2 : permOf sender = "admin")
    (h3 : strContains body "autoclose" = false)
    (h4 : dp "" = none) :
    partitionAfter body "autoclose" = ""
    ∧ issue_comment_created u permOf dp now st rn num gid body sender cid
      = .ok (commentNoop st) := by
  have hpart : partitionAfter body "autoclose" = "" := by
    unfold partitionAfter
    rw [splitFirst_eq_none h3]
  refine ⟨hpart, ?_⟩
  have hc : (strContains (strLower body) (strLower ("@" ++ u ++ " autoclose"))
      && (permOf sender == "admin")) = true := by
    rw [h1, h2]
    simp
  refine icc_cond_true_not_future hc ?_
  intro d hd
  rw [hpart, h4] at hd
  cases hd

theorem C10_uppercase_command_not_scheduled_witness :
    partitionAfter "@BOT AUTOCLOSE tomorrow" "autoclose" = ""
    ∧ issue_comment_created "bot" (fun _ => "admin") (fun _ => none) 0 [job₀]
        "acme/repo" 42 991 "@BOT AUTOCLOSE tomorrow" "carol" 11
      = .ok (commentNoop [job₀]) :=
  C10_uppercase_command_not_scheduled "bot" (fun _ => "admin") (fun _ => none) 0 [job₀]
    "acme/repo" 42 991 "@BOT AUTOCLOSE tomorrow" "carol" 11
    (by decide) rfl (by decide) rfl

end Polychaeta
